import Mathlib

/-!
Verification of `template.go` from `terraform-provider-jenkins`.

Go strings are modelled as lists of characters (`Str`); the Go code under
study slices only at ASCII-character boundaries, where byte indices and
rune indices coincide on the suffix being sliced, so the rune-list model is
faithful.  Fallible operations return `Option`/pairs `(value, error)`
mirroring Go's multiple-return convention.  The two I/O collaborators
(HTTP GET and filesystem read) are passed in as oracles
`Str → Option Str`; `none` models an I/O error.
-/

set_option autoImplicit false

namespace Jenkins

/-- Strings modelled as rune lists. -/
abbrev Str := List Char

/-- Literal conversion helper for writing concrete strings. -/
def str (s : String) : Str := s.toList

/-- Character class `[a-f0-9]` of the Go regex `.*@[a-f0-9]{32}$`:
97..102 are the codepoints of `a`..`f`, 48..57 of `0`..`9`. -/
def lowerHexB (c : Char) : Bool :=
  (97 ≤ c.toNat && c.toNat ≤ 102) || (48 ≤ c.toNat && c.toNat ≤ 57)

/-- Semantics of the regex body `.*@[a-f0-9]{32}$` on a string `m` that the
match consumes to the end: a (possibly empty) run of non-newline runes,
then `@`, then exactly 32 lowercase-hex runes.  RE2's `.` does not match a
newline, and with no `m` flag `$` anchors at end of text. -/
def MatchesHashPattern (m : Str) : Prop :=
  ∃ d h, m = d ++ '@' :: h ∧ (∀ c ∈ d, c ≠ '\n') ∧
    h.length = 32 ∧ ∀ c ∈ h, lowerHexB c = true

/-- Semantics of Go `regexp.MatchString` for an expression that is not
anchored at the start: some suffix-closing substring matches, i.e. the
input splits as an arbitrary prospect followed by a match of the body that
runs to the end of the text. -/
def RegexMatches (s : Str) : Prop :=
  ∃ p m, s = p ++ m ∧ MatchesHashPattern m

/-- Executable model of `re.MatchString(input)` for `.*@[a-f0-9]{32}$`:
the last 33 runes are `@` followed by 32 lowercase-hex runes.
`regexMatches_iff_matchHashSuffix` proves this equivalent to the RE2
semantics `RegexMatches`. -/
def matchHashSuffix (s : Str) : Bool :=
  decide (33 ≤ s.length) &&
    ((s.drop (s.length - 33)).take 1 == ['@']) &&
    (s.drop (s.length - 32)).all lowerHexB

/-- Hash-splitting step of `NewConfigXMLTemplate` (template.go lines
34-40): on a regex match, `source = input[:len(input)-33]` and
`hash = input[len(input)-32:]`; otherwise the whole input is the source
and the hash stays empty. -/
def splitHash (input : Str) : Str × Str :=
  if matchHashSuffix input then
    (input.take (input.length - 33), input.drop (input.length - 32))
  else (input, [])

/-- Model of the Go struct `ConfigXMLTemplate`. -/
structure ConfigXMLTemplate where
  source : Str
  data : Str
  hash : Str
deriving DecidableEq, Repr

/-- Model of `strings.HasPrefix`. -/
def startsWith : Str → Str → Bool
  | [], _ => true
  | _ :: _, [] => false
  | p :: ps, c :: cs => p == c && startsWith ps cs

/-- Model of `strings.Replace(s, pat, "", 1)` for a non-empty pattern:
remove the first occurrence of `pat` from `s`, if any. -/
def removeFirst (pat : Str) : Str → Str
  | [] => []
  | c :: cs =>
    if startsWith pat (c :: cs) then (c :: cs).drop pat.length
    else c :: removeFirst pat cs

/-- Model of `NewConfigXMLTemplate` (template.go lines 28-73).
`httpGet` and `readFile` are the I/O collaborators; `none` is an I/O
error, which Go propagates by returning `(nil, err)` — modelled as
`none`. -/
def newConfigXMLTemplate (httpGet readFile : Str → Option Str)
    (input : Str) : Option ConfigXMLTemplate :=
  let sh := splitHash input
  let source := sh.1
  if startsWith (str "http://") source || startsWith (str "https://") source then
    match httpGet source with
    | none => none
    | some data => some ⟨source, data, sh.2⟩
  else if startsWith (str "file://") source then
    match readFile (removeFirst (str "file://") source) with
    | none => none
    | some data => some ⟨source, data, sh.2⟩
  else
    some ⟨[], source, sh.2⟩

/-! ### Content identity: `ComputedHash` = lowercase hex of `md5.Sum` -/

/-- UTF-8 encoding of one rune, as in Go's `[]byte(string)` conversion. -/
def utf8Bytes1 (c : Char) : List Nat :=
  let n := c.toNat
  if n < 128 then [n]
  else if n < 2048 then [192 + n / 64, 128 + n % 64]
  else if n < 65536 then [224 + n / 4096, 128 + (n / 64) % 64, 128 + n % 64]
  else [240 + n / 262144, 128 + (n / 4096) % 64, 128 + (n / 64) % 64, 128 + n % 64]

/-- UTF-8 bytes of a string, as in Go's `[]byte(s)`. -/
def utf8Bytes (s : Str) : List Nat := (s.map utf8Bytes1).flatten

/-- 32-bit left rotation on a word below `2^32`. -/
def rotl32 (x s : Nat) : Nat := ((x <<< s) ||| (x >>> (32 - s))) % 4294967296

/-- MD5 sine-derived constant table `K[0..63]` (RFC 1321). -/
def mdK : List Nat :=
  [0xd76aa478, 0xe8c7b756, 0x242070db, 0xc1bdceee,
   0xf57c0faf, 0x4787c62a, 0xa8304613, 0xfd469501,
   0x698098d8, 0x8b44f7af, 0xffff5bb1, 0x895cd7be,
   0x6b901122, 0xfd987193, 0xa679438e, 0x49b40821,
   0xf61e2562, 0xc040b340, 0x265e5a51, 0xe9b6c7aa,
   0xd62f105d, 0x02441453, 0xd8a1e681, 0xe7d3fbc8,
   0x21e1cde6, 0xc33707d6, 0xf4d50d87, 0x455a14ed,
   0xa9e3e905, 0xfcefa3f8, 0x676f02d9, 0x8d2a4c8a,
   0xfffa3942, 0x8771f681, 0x6d9d6122, 0xfde5380c,
   0xa4beea44, 0x4bdecfa9, 0xf6bb4b60, 0xbebfbc70,
   0x289b7ec6, 0xeaa127fa, 0xd4ef3085, 0x04881d05,
   0xd9d4d039, 0xe6db99e5, 0x1fa27cf8, 0xc4ac5665,
   0xf4292244, 0x432aff97, 0xab9423a7, 0xfc93a039,
   0x655b59c3, 0x8f0ccc92, 0xffeff47d, 0x85845dd1,
   0x6fa87e4f, 0xfe2ce6e0, 0xa3014314, 0x4e0811a1,
   0xf7537e82, 0xbd3af235, 0x2ad7d2bb, 0xeb86d391]

/-- MD5 per-round left-rotation amounts `s[0..63]` (RFC 1321). -/
def mdS : List Nat :=
  [7, 12, 17, 22, 7, 12, 17, 22, 7, 12, 17, 22, 7, 12, 17, 22,
   5, 9, 14, 20, 5, 9, 14, 20, 5, 9, 14, 20, 5, 9, 14, 20,
   4, 11, 16, 23, 4, 11, 16, 23, 4, 11, 16, 23, 4, 11, 16, 23,
   6, 10, 15, 21, 6, 10, 15, 21, 6, 10, 15, 21, 6, 10, 15, 21]

/-- Running MD5 state: four 32-bit words. -/
structure MD5State where
  a : Nat
  b : Nat
  c : Nat
  d : Nat
deriving Repr

/-- MD5 round `i` (0-based) applied to state `st`, over the sixteen
message words `M` of the current chunk.  All arithmetic is mod `2^32`. -/
def md5Round (M : List Nat) (st : MD5State) (i : Nat) : MD5State :=
  let f :=
    if i < 16 then (st.b &&& st.c) ||| ((st.b ^^^ 4294967295) &&& st.d)
    else if i < 32 then (st.d &&& st.b) ||| ((st.d ^^^ 4294967295) &&& st.c)
    else if i < 48 then st.b ^^^ st.c ^^^ st.d
    else st.c ^^^ (st.b ||| (st.d ^^^ 4294967295))
  let g :=
    if i < 16 then i
    else if i < 32 then (5 * i + 1) % 16
    else if i < 48 then (3 * i + 5) % 16
    else (7 * i) % 16
  let tmp := (f + st.a + mdK.getD i 0 + M.getD g 0) % 4294967296
  { a := st.d, b := (st.b + rotl32 tmp (mdS.getD i 0)) % 4294967296,
    c := st.b, d := st.c }

/-- Little-endian 32-bit word from (up to) four bytes. -/
def leWord (bs : List Nat) : Nat :=
  bs.getD 0 0 + 256 * bs.getD 1 0 + 65536 * bs.getD 2 0 + 16777216 * bs.getD 3 0

/-- Split a byte list into 64-byte chunks. -/
def chunks64 : List Nat → List (List Nat)
  | [] => []
  | b :: bs => ((b :: bs).take 64) :: chunks64 (bs.drop 63)
termination_by l => l.length
decreasing_by simp; omega

/-- Split a 64-byte chunk into four-byte groups. -/
def groups4 : List Nat → List (List Nat)
  | [] => []
  | b :: bs => ((b :: bs).take 4) :: groups4 (bs.drop 3)
termination_by l => l.length
decreasing_by simp; omega

/-- One 64-byte MD5 chunk folded into the state: 64 rounds, then the
original state added back in, all mod `2^32`. -/
def md5Chunk (st : MD5State) (M : List Nat) : MD5State :=
  let r := (List.range 64).foldl (md5Round M) st
  { a := (st.a + r.a) % 4294967296, b := (st.b + r.b) % 4294967296,
    c := (st.c + r.c) % 4294967296, d := (st.d + r.d) % 4294967296 }

/-- Little-endian eight-byte encoding of a 64-bit quantity. -/
def le64 (n : Nat) : List Nat :=
  [n % 256, n / 256 % 256, n / 65536 % 256, n / 16777216 % 256,
   n / 4294967296 % 256, n / 1099511627776 % 256,
   n / 281474976710656 % 256, n / 72057594037927936 % 256]

/-- MD5 padding: append `0x80`, zero-pad to 56 mod 64, then the original
bit length as a little-endian 64-bit number. -/
def md5Pad (bs : List Nat) : List Nat :=
  bs ++ [128] ++ List.replicate ((119 - bs.length % 64) % 64) 0 ++
    le64 ((bs.length * 8) % 18446744073709551616)

/-- Initial MD5 state (RFC 1321). -/
def md5Init : MD5State := ⟨0x67452301, 0xefcdab89, 0x98badcfe, 0x10325476⟩

/-- Little-endian four-byte encoding of a 32-bit word. -/
def wordLE (w : Nat) : List Nat :=
  [w % 256, w / 256 % 256, w / 65536 % 256, w / 16777216 % 256]

/-- MD5 digest of a byte list: sixteen bytes, as Go's `md5.Sum`. -/
def md5Bytes (bs : List Nat) : List Nat :=
  let st := ((chunks64 (md5Pad bs)).map (fun ch => (groups4 ch).map leWord)).foldl
    md5Chunk md5Init
  wordLE st.a ++ wordLE st.b ++ wordLE st.c ++ wordLE st.d

/-- Go's `hex` digit table `"0123456789abcdef"` indexed by a nibble. -/
def hexDigitChar (n : Nat) : Char := (str "0123456789abcdef").getD n '0'

/-- Model of `hex.EncodeToString`: high nibble then low nibble per byte. -/
def hexEncode (bs : List Nat) : Str :=
  (bs.map (fun b => [hexDigitChar (b / 16), hexDigitChar (b % 16)])).flatten

/-- ASCII case-lowering, the restriction of `strings.ToLower` to the ASCII
range that a hex digest inhabits (65..90 are `A`..`Z`). -/
def toLowerChar (c : Char) : Char :=
  if 65 ≤ c.toNat && c.toNat ≤ 90 then Char.ofNat (c.toNat + 32) else c

/-- Pure content digest of `ComputedHash` (template.go lines 108-110):
`strings.ToLower(hex.EncodeToString(md5.Sum([]byte(data))))`. -/
def computedHashStr (data : Str) : Str :=
  (hexEncode (md5Bytes (utf8Bytes data))).map toLowerChar

/-! ### Accessors on a possibly-nil `*ConfigXMLTemplate` receiver

Go methods take a possibly-nil pointer receiver, modelled as
`Option ConfigXMLTemplate`; each returns `(string, error)`, modelled as
`Str × Option Str` where the second component is the error message. -/

/-- Message of `fmt.Errorf("Invalid config.xml template object")`. -/
def invalidObjectErr : Str := str "Invalid config.xml template object"

/-- Model of `GetTemplateID` (template.go lines 75-89). -/
def getTemplateID : Option ConfigXMLTemplate → Str × Option Str
  | none => ([], some invalidObjectErr)
  | some c =>
    if c.source.length = 0 then (c.data, none)
    else (c.source ++ '@' :: computedHashStr c.data, none)

/-- Model of `RecordedHash` (template.go lines 92-99). -/
def recordedHash : Option ConfigXMLTemplate → Str × Option Str
  | none => ([], some invalidObjectErr)
  | some c => (c.hash, none)

/-- Model of `ComputedHash` (template.go lines 102-111). -/
def computedHash : Option ConfigXMLTemplate → Str × Option Str
  | none => ([], some invalidObjectErr)
  | some c => (computedHashStr c.data, none)

/-! ### Parameter adapter and `BindTo` -/

/-- Model of one record of the `parameter` list: a
`map[string]interface{}` probed with the comma-ok idiom for the four
recognized sub-keys, so each is either present (with a string value) or
absent. -/
structure ParamInput where
  type : Option Str
  name : Option Str
  description : Option Str
  default : Option Str
deriving DecidableEq, Repr

/-- Model of `schema.ResourceData` restricted to the keys `BindTo` reads:
`d.Get("name")` always yields a value, every other field is probed via
`d.GetOk`, modelled as `Option`.  Go `map[string]string` values are
modelled as association lists. -/
structure ResourceData where
  name : Str
  display_name : Option Str
  description : Option Str
  trigger_remotely_token : Option Str
  disabled : Option Bool
  master_merge_triggering : Option Bool
  permissions : Option Str
  configuration : Option (List (Str × Str))
  pr_triggering_ghpr : Option (List (Str × Str))
  pr_triggering_gh_integration : Option (List (Str × Str))
  parameter : Option (List ParamInput)
  branch_push_triggering : Option (List (Str × Str))
  jenkinsfile : Option (List (Str × Str))

/-- Model of the local `job` struct of `BindTo` (template.go lines
132-146).  A Go `map[string]string` becomes an association list; a
`[]map[string]string` becomes a list of association lists. -/
structure Job where
  Name : Str
  Description : Str
  DisplayName : Str
  TriggerRemotelyToken : Str
  Disabled : Bool
  MasterMergeTriggering : Bool
  Permissions : List Str
  Parameters : List (List (Str × Str))
  BranchPushTriggering : List (Str × Str)
  PrTriggeringGhpr : List (Str × Str)
  PrTriggeringGhIntegration : List (Str × Str)
  Jenkinsfile : List (Str × Str)
  Configuration : List (Str × Str)
deriving DecidableEq, Repr

/-- Model of `strings.Split(s, ",")`: Go splits around each separator and
keeps empty segments, so the empty string yields `[""]`. -/
def splitOnChar (sep : Char) : Str → List Str
  | [] => [[]]
  | c :: rest =>
    if c = sep then [] :: splitOnChar sep rest
    else
      match splitOnChar sep rest with
      | [] => [[c]]
      | x :: xs => (c :: x) :: xs

/-- Initial `job` value of `BindTo` (template.go lines 150-160): `Name`
from `d.Get("name")`, containers empty, booleans false, texts empty. -/
def initJob (d : ResourceData) : Job :=
  { Name := d.name, Description := [], DisplayName := [],
    TriggerRemotelyToken := [], Disabled := false,
    MasterMergeTriggering := false, Permissions := [], Parameters := [],
    BranchPushTriggering := [], PrTriggeringGhpr := [],
    PrTriggeringGhIntegration := [], Jenkinsfile := [],
    Configuration := [] }

/-- Guarded assignment for `display_name` (template.go lines 161-163). -/
def setDisplayName (d : ResourceData) (j : Job) : Job :=
  match d.display_name with
  | some v => { j with DisplayName := v }
  | none => j

/-- Guarded assignment for `description` (template.go lines 164-166). -/
def setDescription (d : ResourceData) (j : Job) : Job :=
  match d.description with
  | some v => { j with Description := v }
  | none => j

/-- Guarded assignment for `trigger_remotely_token` (lines 167-169). -/
def setTriggerRemotelyToken (d : ResourceData) (j : Job) : Job :=
  match d.trigger_remotely_token with
  | some v => { j with TriggerRemotelyToken := v }
  | none => j

/-- Guarded assignment for `disabled` (template.go lines 170-172). -/
def setDisabled (d : ResourceData) (j : Job) : Job :=
  match d.disabled with
  | some v => { j with Disabled := v }
  | none => j

/-- Guarded assignment for `master_merge_triggering` (lines 173-175). -/
def setMasterMergeTriggering (d : ResourceData) (j : Job) : Job :=
  match d.master_merge_triggering with
  | some v => { j with MasterMergeTriggering := v }
  | none => j

/-- Guarded split-and-append for `permissions` (template.go lines
176-182): split the comma-joined string and append each segment in
order. -/
def setPermissions (d : ResourceData) (j : Job) : Job :=
  match d.permissions with
  | some v => { j with Permissions := j.Permissions ++ splitOnChar ',' v }
  | none => j

/-- Guarded copy for `configuration` (template.go lines 183-188). -/
def setConfiguration (d : ResourceData) (j : Job) : Job :=
  match d.configuration with
  | some v => { j with Configuration := j.Configuration ++ v }
  | none => j

/-- Guarded copy for `pr_triggering_ghpr` (template.go lines 189-194). -/
def setPrTriggeringGhpr (d : ResourceData) (j : Job) : Job :=
  match d.pr_triggering_ghpr with
  | some v => { j with PrTriggeringGhpr := j.PrTriggeringGhpr ++ v }
  | none => j

/-- Guarded copy for `pr_triggering_gh_integration` (lines 195-200). -/
def setPrTriggeringGhIntegration (d : ResourceData) (j : Job) : Job :=
  match d.pr_triggering_gh_integration with
  | some v =>
    { j with PrTriggeringGhIntegration := j.PrTriggeringGhIntegration ++ v }
  | none => j

/-- Guarded insertion `if v, ok := raw[key]; ok { config[Key] = v }` of
one recognized sub-key into the record being built.  The Go
`map[string]string` being built is modelled as an association list whose
key set is what matters. -/
def optEntry (k : Str) : Option Str → List (Str × Str)
  | some v => [(k, v)]
  | none => []

/-- Adaptation of one `parameter` record: the guarded insertions of
template.go lines 209-223 in source order. -/
def adaptParam (r : ParamInput) : List (Str × Str) :=
  optEntry (str "Type") r.type ++ optEntry (str "Name") r.name ++
  optEntry (str "Description") r.description ++
  optEntry (str "Default") r.default

/-- Guarded loop for `parameter` (template.go lines 201-227): adapt each
record in order and append it to `Parameters`. -/
def setParameters (d : ResourceData) (j : Job) : Job :=
  match d.parameter with
  | some rs => { j with Parameters := j.Parameters ++ rs.map adaptParam }
  | none => j

/-- Guarded copy for `branch_push_triggering` (template.go lines
228-233). -/
def setBranchPushTriggering (d : ResourceData) (j : Job) : Job :=
  match d.branch_push_triggering with
  | some v => { j with BranchPushTriggering := j.BranchPushTriggering ++ v }
  | none => j

/-- Guarded copy for `jenkinsfile` (template.go lines 234-239). -/
def setJenkinsfile (d : ResourceData) (j : Job) : Job :=
  match d.jenkinsfile with
  | some v => { j with Jenkinsfile := j.Jenkinsfile ++ v }
  | none => j

/-- Rendering context built by `BindTo` (template.go lines 150-239): the
guarded assignments applied in source order to the initial job. -/
def buildJob (d : ResourceData) : Job :=
  setJenkinsfile d (setBranchPushTriggering d (setParameters d
    (setPrTriggeringGhIntegration d (setPrTriggeringGhpr d
      (setConfiguration d (setPermissions d (setMasterMergeTriggering d
        (setDisabled d (setTriggerRemotelyToken d (setDescription d
          (setDisplayName d (initJob d))))))))))))

/-- Abstract template engine standing for Go's `html/template`: `parse`
models `template.New("template").Parse`, `exec` models `tpl.Execute`
writing into a buffer.  Errors are their messages. -/
structure TemplateEngine (Tpl : Type) where
  parse : Str → Except Str Tpl
  exec : Tpl → Job → Except Str Str

/-- Model of `BindTo` (template.go lines 114-252): nil check, parse,
build the job, execute; every failure returns the empty string together
with the error. -/
def bindTo {Tpl : Type} (E : TemplateEngine Tpl) (d : ResourceData) :
    Option ConfigXMLTemplate → Str × Option Str
  | none => ([], some invalidObjectErr)
  | some c =>
    match E.parse c.data with
    | .error e => ([], some e)
    | .ok tpl =>
      match E.exec tpl (buildJob d) with
      | .error e => ([], some e)
      | .ok xml => (xml, none)

/-! ### Lemmas about the hash-suffix regex -/

/-- Decomposition of a string that ends in `@` plus 32 lowercase-hex
runes; the characterization `matchHashSuffix` decides. -/
def EndsInHash (s : Str) : Prop :=
  ∃ pre h, s = pre ++ '@' :: h ∧ h.length = 32 ∧ ∀ c ∈ h, lowerHexB c = true

theorem matchHashSuffix_of_endsInHash {s : Str} (hs : EndsInHash s) :
    matchHashSuffix s = true := by
  obtain ⟨pre, h, rfl, hlen, hhex⟩ := hs
  have hslen : (pre ++ '@' :: h).length = pre.length + 33 := by
    simp [hlen]
  have hd33 : (pre ++ '@' :: h).drop ((pre ++ '@' :: h).length - 33) = '@' :: h := by
    rw [hslen]
    have : pre.length + 33 - 33 = pre.length := by omega
    rw [this, List.drop_left]
  have hd32 : (pre ++ '@' :: h).drop ((pre ++ '@' :: h).length - 32) = h := by
    rw [hslen]
    have h1 : pre.length + 33 - 32 = (pre ++ ['@']).length := by simp
    rw [h1, show pre ++ '@' :: h = (pre ++ ['@']) ++ h by simp, List.drop_left]
  simp only [matchHashSuffix, hd33, hd32, Bool.and_eq_true, decide_eq_true_eq,
    List.all_eq_true]
  refine ⟨⟨by omega, by simp⟩, fun c hc => hhex c hc⟩

theorem endsInHash_of_matchHashSuffix {s : Str} (hm : matchHashSuffix s = true) :
    EndsInHash s := by
  simp only [matchHashSuffix, Bool.and_eq_true, decide_eq_true_eq,
    List.all_eq_true, beq_iff_eq] at hm
  obtain ⟨⟨h33, htake⟩, hall⟩ := hm
  refine ⟨s.take (s.length - 33), s.drop (s.length - 32), ?_, by simp; omega,
    fun c hc => hall c hc⟩
  have hdrop : s.drop (s.length - 33) = '@' :: s.drop (s.length - 32) := by
    have h1 : s.drop (s.length - 33) =
        (s.drop (s.length - 33)).take 1 ++ (s.drop (s.length - 33)).drop 1 := by
      rw [List.take_append_drop]
    rw [htake, List.drop_drop] at h1
    rw [show s.length - 33 + 1 = s.length - 32 by omega] at h1
    simpa using h1
  conv_lhs => rw [← List.take_append_drop (s.length - 33) s]
  rw [hdrop]

theorem regexMatches_iff_endsInHash (s : Str) : RegexMatches s ↔ EndsInHash s := by
  constructor
  · rintro ⟨p, m, rfl, d, h, rfl, _, hlen, hhex⟩
    exact ⟨p ++ d, h, by simp, hlen, hhex⟩
  · rintro ⟨pre, h, rfl, hlen, hhex⟩
    exact ⟨pre, '@' :: h, rfl, [], h, rfl, by simp, hlen, hhex⟩

theorem splitHash_of_endsInHash {pre h : Str} (hlen : h.length = 32)
    (hhex : ∀ c ∈ h, lowerHexB c = true) :
    splitHash (pre ++ '@' :: h) = (pre, h) := by
  have hm : matchHashSuffix (pre ++ '@' :: h) = true :=
    matchHashSuffix_of_endsInHash ⟨pre, h, rfl, hlen, hhex⟩
  have hslen : (pre ++ '@' :: h).length = pre.length + 33 := by simp [hlen]
  simp only [splitHash, hm, if_true, hslen, Prod.mk.injEq]
  constructor
  · rw [show pre.length + 33 - 33 = pre.length by omega, List.take_left]
  · rw [show pre.length + 33 - 32 = (pre ++ ['@']).length by simp,
      show pre ++ '@' :: h = (pre ++ ['@']) ++ h by simp, List.drop_left]

theorem newConfigXMLTemplate_hash (hg rf : Str → Option Str) (input : Str)
    (t : ConfigXMLTemplate) (hres : newConfigXMLTemplate hg rf input = some t) :
    t.hash = (splitHash input).2 := by
  unfold newConfigXMLTemplate at hres
  dsimp only at hres
  split at hres
  · split at hres
    · exact absurd hres (by simp)
    · exact (Option.some.injEq .. ▸ hres : _ = t) ▸ rfl
  · split at hres
    · split at hres
      · exact absurd hres (by simp)
      · exact (Option.some.injEq .. ▸ hres : _ = t) ▸ rfl
    · exact (Option.some.injEq .. ▸ hres : _ = t) ▸ rfl

/-- C1: `NewConfigXMLTemplate` splits a recorded hash iff the reference
ends in `@` followed by exactly 32 lowercase-hex characters — the RE2
semantics of `.*@[a-f0-9]{32}$` agrees with the executable suffix test;
when the pattern matches, the recorded hash is the final 32 characters and
the candidate is the reference with its last 33 characters removed; when
it does not match, the recorded hash is empty and the whole reference is
the candidate; and the `hash` field of any resolution result is exactly
the split's hash component. -/
theorem C1_hash_split (input : Str) :
    (RegexMatches input ↔ matchHashSuffix input = true) ∧
    (∀ pre h, input = pre ++ '@' :: h → h.length = 32 →
      (∀ c ∈ h, lowerHexB c = true) → splitHash input = (pre, h)) ∧
    (¬ RegexMatches input → splitHash input = (input, [])) ∧
    (∀ hg rf t, newConfigXMLTemplate hg rf input = some t →
      t.hash = (splitHash input).2) := by
  refine ⟨?_, ?_, ?_, ?_⟩
  · rw [regexMatches_iff_endsInHash]
    exact ⟨matchHashSuffix_of_endsInHash, endsInHash_of_matchHashSuffix⟩
  · rintro pre h rfl hlen hhex
    exact splitHash_of_endsInHash hlen hhex
  · intro hnot
    have hm : matchHashSuffix input = false := by
      by_contra hne
      exact hnot ((regexMatches_iff_endsInHash input).mpr
        (endsInHash_of_matchHashSuffix (by revert hne; cases matchHashSuffix input <;> simp)))
    simp [splitHash, hm]
  · exact fun hg rf t => newConfigXMLTemplate_hash hg rf input t

/-- Witness for C1 at the spec's own test vector
`"foo@deadbeefdeadbeefdeadbeefdeadbeef"`. -/
theorem C1_hash_split_witness :
    splitHash (str "foo@deadbeefdeadbeefdeadbeefdeadbeef") =
      (str "foo", str "deadbeefdeadbeefdeadbeefdeadbeef") :=
  (C1_hash_split (str "foo@deadbeefdeadbeefdeadbeefdeadbeef")).2.1
    (str "foo") (str "deadbeefdeadbeefdeadbeefdeadbeef")
    (by decide) (by decide) (by decide)

/-- C2: when the candidate string left after hash splitting starts with
none of `http://`, `https://`, `file://`, resolution succeeds for every
pair of I/O oracles (so no fetch or read is consulted), the location is
empty and the content is the candidate verbatim. -/
theorem C2_inline_candidate (hg rf : Str → Option Str) (input : Str)
    (h1 : startsWith (str "http://") (splitHash input).1 = false)
    (h2 : startsWith (str "https://") (splitHash input).1 = false)
    (h3 : startsWith (str "file://") (splitHash input).1 = false) :
    newConfigXMLTemplate hg rf input =
      some ⟨[], (splitHash input).1, (splitHash input).2⟩ := by
  unfold newConfigXMLTemplate
  simp [h1, h2, h3]

/-- Witness for C2 at the spec's inline example `"inline-body-text"`. -/
theorem C2_inline_candidate_witness :
    newConfigXMLTemplate (fun _ => none) (fun _ => none)
        (str "inline-body-text") =
      some ⟨[], str "inline-body-text", []⟩ :=
  C2_inline_candidate (fun _ => none) (fun _ => none) (str "inline-body-text")
    (by decide) (by decide) (by decide)

/-! ### Digest shape lemmas -/

theorem lowerHexB_hexDigitChar (n : Nat) : lowerHexB (hexDigitChar n) = true := by
  by_cases h : n < 16
  · interval_cases n <;> decide
  · have : (str "0123456789abcdef").length ≤ n := by
      simp only [not_lt] at h
      exact le_trans (by decide) h
    rw [hexDigitChar, List.getD_eq_default _ _ this]
    decide

theorem toLowerChar_of_lowerHexB {c : Char} (h : lowerHexB c = true) :
    toLowerChar c = c := by
  simp only [lowerHexB, Bool.or_eq_true, Bool.and_eq_true,
    decide_eq_true_eq] at h
  rw [toLowerChar, if_neg]
  simp only [Bool.and_eq_true, decide_eq_true_eq, not_and, not_le]
  omega

theorem length_hexEncode (bs : List Nat) : (hexEncode bs).length = 2 * bs.length := by
  induction bs with
  | nil => rfl
  | cons b bs ih =>
    simp only [hexEncode, List.map_cons, List.flatten_cons] at ih ⊢
    simp only [List.length_append, List.length_cons, List.length_nil, ih]
    omega

theorem mem_hexEncode {c : Char} {bs : List Nat} (h : c ∈ hexEncode bs) :
    ∃ n, c = hexDigitChar n := by
  simp only [hexEncode, List.mem_flatten, List.mem_map] at h
  obtain ⟨l, ⟨b, _, rfl⟩, hc⟩ := h
  simp only [List.mem_cons, List.not_mem_nil, or_false] at hc
  rcases hc with rfl | rfl
  · exact ⟨b / 16, rfl⟩
  · exact ⟨b % 16, rfl⟩

theorem length_md5Bytes (bs : List Nat) : (md5Bytes bs).length = 16 := by
  simp [md5Bytes, wordLE]

/-- C3: `GetTemplateID` on an initialized template returns the content
itself (with no error) when the location is empty, and otherwise the
string `location ++ "@" ++ ComputedHash(content)`. -/
theorem C3_getTemplateID (c : ConfigXMLTemplate) :
    (c.source = [] → getTemplateID (some c) = (c.data, none)) ∧
    (c.source ≠ [] → getTemplateID (some c) =
      (c.source ++ '@' :: (computedHash (some c)).1, none)) := by
  constructor
  · intro h
    simp [getTemplateID, h]
  · intro h
    rw [getTemplateID, if_neg]
    · rfl
    · simpa [List.length_eq_zero] using h

/-- Witness for C3 at an inline template and at a located template. -/
theorem C3_getTemplateID_witness :
    getTemplateID (some ⟨[], str "x", []⟩) = (str "x", none) ∧
    getTemplateID (some ⟨str "s", str "x", []⟩) =
      (str "s" ++ '@' :: (computedHash (some ⟨str "s", str "x", []⟩)).1, none) :=
  ⟨(C3_getTemplateID ⟨[], str "x", []⟩).1 rfl,
   (C3_getTemplateID ⟨str "s", str "x", []⟩).2 (by decide)⟩

theorem length_computedHashStr (d : Str) : (computedHashStr d).length = 32 := by
  rw [computedHashStr, List.length_map, length_hexEncode, length_md5Bytes]

theorem lowerHexB_computedHashStr (d : Str) :
    ∀ c ∈ computedHashStr d, lowerHexB c = true := by
  intro c hc
  rw [computedHashStr] at hc
  obtain ⟨c', hc', rfl⟩ := List.mem_map.mp hc
  obtain ⟨n, rfl⟩ := mem_hexEncode hc'
  rw [toLowerChar_of_lowerHexB (lowerHexB_hexDigitChar n)]
  exact lowerHexB_hexDigitChar n

/-- C4: `ComputedHash` is a pure function of the content bytes —
byte-identical contents give equal digests — the underlying digest is
128 bits (16 bytes), and every digest string is exactly 32 characters,
all in the lowercase-hex class `[a-f0-9]` that the Source Resolver's
pattern expects. -/
theorem C4_computedHash_shape (d1 d2 : Str) :
    (d1 = d2 → computedHashStr d1 = computedHashStr d2) ∧
    (md5Bytes (utf8Bytes d1)).length = 16 ∧
    (computedHashStr d1).length = 32 ∧
    ∀ c ∈ computedHashStr d1, lowerHexB c = true := by
  exact ⟨fun h => by rw [h], length_md5Bytes _, length_computedHashStr d1,
    lowerHexB_computedHashStr d1⟩

/-- Witness for C4 at the content `"abc"`. -/
theorem C4_computedHash_shape_witness :
    computedHashStr (str "abc") = computedHashStr (str "abc") ∧
    (computedHashStr (str "abc")).length = 32 :=
  ⟨(C4_computedHash_shape (str "abc") (str "abc")).1 rfl,
   (C4_computedHash_shape (str "abc") (str "abc")).2.2.1⟩

/-- C5: resolving `GetTemplateID` of a template with non-empty location
again, with the backing source serving the same bytes, yields a template
whose recorded hash is exactly the digest that `GetTemplateID` embedded
and whose content is byte-identical to the original. -/
theorem C5_templateID_roundtrip (hg rf : Str → Option Str)
    (c : ConfigXMLTemplate) (hsrc : c.source ≠ [])
    (hfetch :
      (startsWith (str "http://") c.source = true ∧ hg c.source = some c.data) ∨
      (startsWith (str "https://") c.source = true ∧ hg c.source = some c.data) ∨
      (startsWith (str "http://") c.source = false ∧
        startsWith (str "https://") c.source = false ∧
        startsWith (str "file://") c.source = true ∧
        rf (removeFirst (str "file://") c.source) = some c.data)) :
    newConfigXMLTemplate hg rf (getTemplateID (some c)).1 =
      some ⟨c.source, c.data, computedHashStr c.data⟩ := by
  have hid : (getTemplateID (some c)).1 =
      c.source ++ '@' :: computedHashStr c.data := by
    rw [getTemplateID, if_neg (by simpa [List.length_eq_zero] using hsrc)]
  have hsplit : splitHash (getTemplateID (some c)).1 =
      (c.source, computedHashStr c.data) := by
    rw [hid]
    exact splitHash_of_endsInHash (length_computedHashStr c.data)
      (lowerHexB_computedHashStr c.data)
  rcases hfetch with ⟨hp, hf⟩ | ⟨hp, hf⟩ | ⟨hp1, hp2, hp3, hf⟩
  · simp only [newConfigXMLTemplate, hsplit]
    simp [hp, hf]
  · simp only [newConfigXMLTemplate, hsplit]
    simp [hp, hf]
  · simp only [newConfigXMLTemplate, hsplit]
    simp [hp1, hp2, hp3, hf]

/-- Witness for C5: a stable HTTP source serving `"hi"` at
`"http://x"`. -/
theorem C5_templateID_roundtrip_witness :
    newConfigXMLTemplate (fun _ => some (str "hi")) (fun _ => none)
        (getTemplateID (some ⟨str "http://x", str "hi", []⟩)).1 =
      some ⟨str "http://x", str "hi", computedHashStr (str "hi")⟩ :=
  C5_templateID_roundtrip (fun _ => some (str "hi")) (fun _ => none)
    ⟨str "http://x", str "hi", []⟩ (by decide)
    (Or.inl ⟨by decide, rfl⟩)

/-- C6: every accessor invoked on an absent (nil) template returns the
"Invalid config.xml template object" error paired with the empty string,
for any engine and any resource data. -/
theorem C6_nil_accessors {Tpl : Type} (E : TemplateEngine Tpl)
    (d : ResourceData) :
    getTemplateID none = ([], some invalidObjectErr) ∧
    recordedHash none = ([], some invalidObjectErr) ∧
    computedHash none = ([], some invalidObjectErr) ∧
    bindTo E d none = ([], some invalidObjectErr) :=
  ⟨rfl, rfl, rfl, rfl⟩

/-! ### Projections of the rendering context through the guarded
assignments -/

theorem setDisplayName_Permissions (d : ResourceData) (j : Job) :
    (setDisplayName d j).Permissions = j.Permissions := by
  unfold setDisplayName
  cases d.display_name <;> rfl

theorem setDescription_Permissions (d : ResourceData) (j : Job) :
    (setDescription d j).Permissions = j.Permissions := by
  unfold setDescription
  cases d.description <;> rfl

theorem setTriggerRemotelyToken_Permissions (d : ResourceData) (j : Job) :
    (setTriggerRemotelyToken d j).Permissions = j.Permissions := by
  unfold setTriggerRemotelyToken
  cases d.trigger_remotely_token <;> rfl

theorem setDisabled_Permissions (d : ResourceData) (j : Job) :
    (setDisabled d j).Permissions = j.Permissions := by
  unfold setDisabled
  cases d.disabled <;> rfl

theorem setMasterMergeTriggering_Permissions (d : ResourceData) (j : Job) :
    (setMasterMergeTriggering d j).Permissions = j.Permissions := by
  unfold setMasterMergeTriggering
  cases d.master_merge_triggering <;> rfl

theorem setConfiguration_Permissions (d : ResourceData) (j : Job) :
    (setConfiguration d j).Permissions = j.Permissions := by
  unfold setConfiguration
  cases d.configuration <;> rfl

theorem setPrTriggeringGhpr_Permissions (d : ResourceData) (j : Job) :
    (setPrTriggeringGhpr d j).Permissions = j.Permissions := by
  unfold setPrTriggeringGhpr
  cases d.pr_triggering_ghpr <;> rfl

theorem setPrTriggeringGhIntegration_Permissions (d : ResourceData) (j : Job) :
    (setPrTriggeringGhIntegration d j).Permissions = j.Permissions := by
  unfold setPrTriggeringGhIntegration
  cases d.pr_triggering_gh_integration <;> rfl

theorem setParameters_Permissions (d : ResourceData) (j : Job) :
    (setParameters d j).Permissions = j.Permissions := by
  unfold setParameters
  cases d.parameter <;> rfl

theorem setBranchPushTriggering_Permissions (d : ResourceData) (j : Job) :
    (setBranchPushTriggering d j).Permissions = j.Permissions := by
  unfold setBranchPushTriggering
  cases d.branch_push_triggering <;> rfl

theorem setJenkinsfile_Permissions (d : ResourceData) (j : Job) :
    (setJenkinsfile d j).Permissions = j.Permissions := by
  unfold setJenkinsfile
  cases d.jenkinsfile <;> rfl

theorem buildJob_Permissions (d : ResourceData) :
    (buildJob d).Permissions =
      match d.permissions with
      | some v => splitOnChar ',' v
      | none => [] := by
  rw [buildJob, setJenkinsfile_Permissions, setBranchPushTriggering_Permissions,
    setParameters_Permissions, setPrTriggeringGhIntegration_Permissions,
    setPrTriggeringGhpr_Permissions, setConfiguration_Permissions]
  unfold setPermissions
  cases d.permissions <;>
    simp [setMasterMergeTriggering_Permissions, setDisabled_Permissions,
      setTriggerRemotelyToken_Permissions, setDescription_Permissions,
      setDisplayName_Permissions, initJob]

theorem setDisplayName_Parameters (d : ResourceData) (j : Job) :
    (setDisplayName d j).Parameters = j.Parameters := by
  unfold setDisplayName
  cases d.display_name <;> rfl

theorem setDescription_Parameters (d : ResourceData) (j : Job) :
    (setDescription d j).Parameters = j.Parameters := by
  unfold setDescription
  cases d.description <;> rfl

theorem setTriggerRemotelyToken_Parameters (d : ResourceData) (j : Job) :
    (setTriggerRemotelyToken d j).Parameters = j.Parameters := by
  unfold setTriggerRemotelyToken
  cases d.trigger_remotely_token <;> rfl

theorem setDisabled_Parameters (d : ResourceData) (j : Job) :
    (setDisabled d j).Parameters = j.Parameters := by
  unfold setDisabled
  cases d.disabled <;> rfl

theorem setMasterMergeTriggering_Parameters (d : ResourceData) (j : Job) :
    (setMasterMergeTriggering d j).Parameters = j.Parameters := by
  unfold setMasterMergeTriggering
  cases d.master_merge_triggering <;> rfl

theorem setPermissions_Parameters (d : ResourceData) (j : Job) :
    (setPermissions d j).Parameters = j.Parameters := by
  unfold setPermissions
  cases d.permissions <;> rfl

theorem setConfiguration_Parameters (d : ResourceData) (j : Job) :
    (setConfiguration d j).Parameters = j.Parameters := by
  unfold setConfiguration
  cases d.configuration <;> rfl

theorem setPrTriggeringGhpr_Parameters (d : ResourceData) (j : Job) :
    (setPrTriggeringGhpr d j).Parameters = j.Parameters := by
  unfold setPrTriggeringGhpr
  cases d.pr_triggering_ghpr <;> rfl

theorem setPrTriggeringGhIntegration_Parameters (d : ResourceData) (j : Job) :
    (setPrTriggeringGhIntegration d j).Parameters = j.Parameters := by
  unfold setPrTriggeringGhIntegration
  cases d.pr_triggering_gh_integration <;> rfl

theorem setBranchPushTriggering_Parameters (d : ResourceData) (j : Job) :
    (setBranchPushTriggering d j).Parameters = j.Parameters := by
  unfold setBranchPushTriggering
  cases d.branch_push_triggering <;> rfl

theorem setJenkinsfile_Parameters (d : ResourceData) (j : Job) :
    (setJenkinsfile d j).Parameters = j.Parameters := by
  unfold setJenkinsfile
  cases d.jenkinsfile <;> rfl

theorem buildJob_Parameters (d : ResourceData) :
    (buildJob d).Parameters =
      match d.parameter with
      | some rs => rs.map adaptParam
      | none => [] := by
  rw [buildJob, setJenkinsfile_Parameters, setBranchPushTriggering_Parameters]
  unfold setParameters
  cases d.parameter <;>
    simp [setPrTriggeringGhIntegration_Parameters, setPrTriggeringGhpr_Parameters,
      setConfiguration_Parameters, setPermissions_Parameters,
      setMasterMergeTriggering_Parameters, setDisabled_Parameters,
      setTriggerRemotelyToken_Parameters, setDescription_Parameters,
      setDisplayName_Parameters, initJob]

/-- C7: a present `permissions` field is split on `,` into an ordered
list preserving order and keeping empty and duplicate segments; in
particular `"a,b,,c"` yields exactly `["a", "b", "", "c"]`. -/
theorem C7_permissions_split (d : ResourceData) (p : Str)
    (hp : d.permissions = some p) :
    (buildJob d).Permissions = splitOnChar ',' p ∧
    (p = str "a,b,,c" →
      (buildJob d).Permissions = [str "a", str "b", [], str "c"]) := by
  have hmain : (buildJob d).Permissions = splitOnChar ',' p := by
    rw [buildJob_Permissions, hp]
  refine ⟨hmain, fun hpv => ?_⟩
  rw [hmain, hpv]
  decide

/-- Witness for C7 at `permissions = "a,b,,c"`. -/
theorem C7_permissions_split_witness :
    (buildJob ⟨[], none, none, none, none, none, some (str "a,b,,c"), none,
      none, none, none, none, none⟩).Permissions =
      [str "a", str "b", [], str "c"] :=
  (C7_permissions_split ⟨[], none, none, none, none, none,
    some (str "a,b,,c"), none, none, none, none, none, none⟩
    (str "a,b,,c") rfl).2 rfl

/-- C8: each `parameter` record's recognized sub-keys are copied into the
output record exactly when present — the output association under each
capitalized key equals the optional input sub-key, so a missing sub-key is
omitted rather than defaulted — and the record order of the list is
preserved. -/
theorem C8_parameter_records (d : ResourceData) (ps : List ParamInput)
    (hp : d.parameter = some ps) :
    (buildJob d).Parameters = ps.map adaptParam ∧
    ∀ r : ParamInput,
      (adaptParam r).lookup (str "Type") = r.type ∧
      (adaptParam r).lookup (str "Name") = r.name ∧
      (adaptParam r).lookup (str "Description") = r.description ∧
      (adaptParam r).lookup (str "Default") = r.default := by
  constructor
  · rw [buildJob_Parameters, hp]
  · intro r
    obtain ⟨t, n, de, df⟩ := r
    cases t <;> cases n <;> cases de <;> cases df <;>
      exact ⟨rfl, rfl, rfl, rfl⟩

/-- Witness for C8: one record carrying only `type` and `default`. -/
theorem C8_parameter_records_witness :
    (buildJob ⟨[], none, none, none, none, none, none, none, none, none,
      some [⟨some (str "string"), none, none, some (str "v")⟩], none,
      none⟩).Parameters =
      List.map adaptParam [⟨some (str "string"), none, none, some (str "v")⟩] ∧
    (adaptParam ⟨some (str "string"), none, none, some (str "v")⟩).lookup
      (str "Name") = none :=
  ⟨(C8_parameter_records ⟨[], none, none, none, none, none, none, none,
      none, none, some [⟨some (str "string"), none, none, some (str "v")⟩],
      none, none⟩ [⟨some (str "string"), none, none, some (str "v")⟩]
      rfl).1,
   ((C8_parameter_records ⟨[], none, none, none, none, none, none, none,
      none, none, some [⟨some (str "string"), none, none, some (str "v")⟩],
      none, none⟩ [⟨some (str "string"), none, none, some (str "v")⟩]
      rfl).2 ⟨some (str "string"), none, none, some (str "v")⟩).2.1⟩

theorem fst_mem_optEntry {k : Str} {o : Option Str} {kv : Str × Str}
    (h : kv ∈ optEntry k o) : kv.1 = k := by
  cases o with
  | none => cases h
  | some v =>
    rw [optEntry, List.mem_singleton] at h
    rw [h]

/-- C10: every association produced for a parameter record carries one of
the capitalized keys `"Type"`, `"Name"`, `"Description"`, `"Default"`,
and never one of the lowercase input sub-key names. -/
theorem C10_param_keys_capitalized (r : ParamInput) (kv : Str × Str)
    (hkv : kv ∈ adaptParam r) :
    (kv.1 = str "Type" ∨ kv.1 = str "Name" ∨ kv.1 = str "Description" ∨
      kv.1 = str "Default") ∧
    kv.1 ≠ str "type" ∧ kv.1 ≠ str "name" ∧ kv.1 ≠ str "description" ∧
    kv.1 ≠ str "default" := by
  have hfst : kv.1 = str "Type" ∨ kv.1 = str "Name" ∨
      kv.1 = str "Description" ∨ kv.1 = str "Default" := by
    rw [adaptParam] at hkv
    rcases List.mem_append.mp hkv with h | h
    · rcases List.mem_append.mp h with h | h
      · rcases List.mem_append.mp h with h | h
        · exact Or.inl (fst_mem_optEntry h)
        · exact Or.inr (Or.inl (fst_mem_optEntry h))
      · exact Or.inr (Or.inr (Or.inl (fst_mem_optEntry h)))
    · exact Or.inr (Or.inr (Or.inr (fst_mem_optEntry h)))
  refine ⟨hfst, ?_⟩
  rcases hfst with h | h | h | h <;> rw [h] <;>
    exact ⟨by decide, by decide, by decide, by decide⟩

/-- Witness for C10 at a record whose `type` sub-key is present. -/
theorem C10_param_keys_capitalized_witness :
    ((str "Type", str "x").1 = str "Type" ∨
      (str "Type", str "x").1 = str "Name" ∨
      (str "Type", str "x").1 = str "Description" ∨
      (str "Type", str "x").1 = str "Default") ∧
    (str "Type", str "x").1 ≠ str "type" ∧
    (str "Type", str "x").1 ≠ str "name" ∧
    (str "Type", str "x").1 ≠ str "description" ∧
    (str "Type", str "x").1 ≠ str "default" :=
  C10_param_keys_capitalized ⟨some (str "x"), none, none, none⟩
    (str "Type", str "x") (by decide)

/-- C9: `BindTo` on an initialized template yields a rendered document
iff neither parsing nor execution fails: a parse failure surfaces the
parser's error with the empty string as output, a parse success followed
by an execution failure surfaces that error with the empty string, and
only the doubly-successful path yields the rendered text with no
error. -/
theorem C9_bindTo_error_paths {Tpl : Type} (E : TemplateEngine Tpl)
    (d : ResourceData) (c : ConfigXMLTemplate) :
    (∀ e, E.parse c.data = .error e → bindTo E d (some c) = ([], some e)) ∧
    (∀ tpl e, E.parse c.data = .ok tpl →
      E.exec tpl (buildJob d) = .error e →
      bindTo E d (some c) = ([], some e)) ∧
    (∀ tpl out, E.parse c.data = .ok tpl →
      E.exec tpl (buildJob d) = .ok out →
      bindTo E d (some c) = (out, none)) := by
  refine ⟨fun e he => ?_, fun tpl e hp he => ?_, fun tpl out hp ho => ?_⟩ <;>
    simp [bindTo, *]

/-- Witness for C9 with a one-template engine whose parse fails on the
empty body and succeeds otherwise. -/
theorem C9_bindTo_error_paths_witness :
    bindTo ⟨fun s => if s = [] then .error (str "EOF") else .ok (),
        fun _ _ => .ok (str "out")⟩
      ⟨[], none, none, none, none, none, none, none, none, none, none,
        none, none⟩
      (some ⟨[], str "<a/>", []⟩) = (str "out", none) :=
  (C9_bindTo_error_paths
    ⟨fun s => if s = [] then .error (str "EOF") else .ok (),
      fun _ _ => .ok (str "out")⟩
    ⟨[], none, none, none, none, none, none, none, none, none, none,
      none, none⟩
    ⟨[], str "<a/>", []⟩).2.2 () (str "out") (by simp [str]) rfl

end Jenkins
